import Mathlib

/-!
Verification of the monaco-spellchecker core (src/unnamed/part_001, the
marker-based variant exported by the package) against its natural-language
specification.

The embedding below translates the source functions into Lean:
* `defaultTokenize` models the generator at lines 45-56 (the regex
  search loop for /\b[a-zA-Z']+\b/g together with the `word.length < 2`
  filter), implemented as the standard backtracking regex search for this
  particular pattern over a character list;
* `defaultMessageBuilder` models lines 30-43;
* `scanTokensE` / `scanLinesE` / `processCore` model the debounced scan
  callback at lines 94-147 (`process`), with the host `check` callback
  returning `Except JsError Bool`: `.error` models a rejected promise,
  which `await result` rethrows into the scan loop;
* `scanTokens` / `scanLines` are the same loop specialized to a host
  `check` that returns a plain boolean (the `typeof result === 'boolean'`
  branch), related to the general loop by `scanLinesE_pure`;
* `provideCodeActions` models lines 150-215;
* `getSpellchecker` models the construction at lines 74-92 (plain
  destructuring of the options, no validation);
* `debounceCall`, `debounceFireTimes`, `ScanSession`, `lastWriter` and
  `runSessions` model the debounce helper at lines 58-66 and the timing
  behaviour of scan sessions: each timer firing starts one asynchronous
  scan whose final `setModelMarkers` call (line 146) overwrites the marker
  store; the store is a last-write-wins register and the source contains
  no session/generation token;
* `ignoreRun` / `addWordRun` model the editor actions registered at
  lines 243-271;
* `dispose` models lines 273-278.
-/

namespace Spell

/-- Host-callback failures: `typeError` models invoking an `undefined`
member (a missing option), `rejected` models a rejected promise. -/
inductive JsError
  | typeError
  | rejected
deriving DecidableEq, Repr

instance instDecEqExcept {ε α : Type} [DecidableEq ε] [DecidableEq α] :
    DecidableEq (Except ε α) := fun a b =>
  match a, b with
  | .error e1, .error e2 =>
    match decEq e1 e2 with
    | isTrue h => isTrue (h ▸ rfl)
    | isFalse h => isFalse (fun hh => h (Except.error.inj hh))
  | .error _, .ok _ => isFalse (fun hh => Except.noConfusion hh)
  | .ok _, .error _ => isFalse (fun hh => Except.noConfusion hh)
  | .ok a1, .ok a2 =>
    match decEq a1 a2 with
    | isTrue h => isTrue (h ▸ rfl)
    | isFalse h => isFalse (fun hh => h (Except.ok.inj hh))

/-- A token produced by the tokenizer: the matched word and its 0-based
offset in the line (source: the `{ word, pos }` objects of lines 45-56). -/
structure Token where
  word : String
  pos : Nat
deriving DecidableEq, Repr

/-- The range shape used by monaco (1-based lines and columns, half-open
columns). -/
structure XRange where
  startLineNumber : Nat
  startColumn : Nat
  endLineNumber : Nat
  endColumn : Nat
deriving DecidableEq, Repr

/-- One published marker (`Monaco.editor.IMarkerData` as used at
lines 133-141): `code` stores the scanned word, `severity` the numeric
monaco severity (Warning = 4). -/
structure Marker where
  code : String
  startLineNumber : Nat
  startColumn : Nat
  endLineNumber : Nat
  endColumn : Nat
  message : String
  severity : Nat
deriving DecidableEq, Repr

def Marker.toRange (m : Marker) : XRange :=
  ⟨m.startLineNumber, m.startColumn, m.endLineNumber, m.endColumn⟩

/-- The four message kinds of the `messageBuilder` option (source line 19). -/
inductive MsgKind
  | hoverMessage
  | ignoreWord
  | addToDict
  | applySuggestion
deriving DecidableEq, Repr

/-- Source lines 30-43. -/
def defaultMessageBuilder : MsgKind → String → String
  | .hoverMessage, w => "\"" ++ w ++ "\" is misspelled."
  | .ignoreWord, w => "Ignore \"" ++ w ++ "\""
  | .addToDict, w => "Add \"" ++ w ++ "\" to Dictionary"
  | .applySuggestion, w => "Replace with \"" ++ w ++ "\""

/-- JavaScript `\w` (word character for `\b`): ASCII letter, digit or
underscore. -/
def isWordChar (c : Char) : Bool := c.isAlphanum || c == '_'

/-- Character class `[a-zA-Z']` of the default tokenizer's regex; code
point 39 is the apostrophe. -/
def isClassChar (c : Char) : Bool := c.isAlpha || c.toNat == 39

/-- Whether the character at 0-based position `p` exists and is a word
character; out-of-range positions count as non-word, as in JavaScript. -/
def charIsWordAt (s : List Char) (p : Nat) : Bool :=
  match s.get? p with
  | some c => isWordChar c
  | none => false

/-- JavaScript `\b` at position `p` (between `s[p-1]` and `s[p]`). -/
def boundaryAt (s : List Char) (p : Nat) : Bool :=
  match p with
  | 0 => charIsWordAt s 0
  | q + 1 => charIsWordAt s q != charIsWordAt s (q + 1)

/-- Length of the maximal prefix of characters in the class `[a-zA-Z']`. -/
def classRunLen : List Char → Nat
  | [] => 0
  | c :: rest => if isClassChar c then classRunLen rest + 1 else 0

/-- End (exclusive) of the maximal `[a-zA-Z']` run starting at `i`. -/
def runEnd (s : List Char) (i : Nat) : Nat := i + classRunLen (s.drop i)

/-- Greedy backtracking for the trailing `\b`: try match ends
`i + d, i + d - 1, …, i + 1` and keep the largest one at a boundary. -/
def backtrack (s : List Char) (i : Nat) : Nat → Option Nat
  | 0 => none
  | d + 1 => if boundaryAt s (i + d + 1) then some (i + d + 1) else backtrack s i d

/-- Attempt to match `/\b[a-zA-Z']+\b/` starting exactly at position `i`;
returns the exclusive end of the match. -/
def matchAt (s : List Char) (i : Nat) : Option Nat :=
  if boundaryAt s i then backtrack s i (runEnd s i - i) else none

/-- The substring `s[i..j)` as a string. -/
def wordAt (s : List Char) (i j : Nat) : String := String.mk ((s.drop i).take (j - i))

/-- The `wordReg.exec` loop of lines 45-56: search for the next match from
position `i` onward, emit it unless shorter than 2 characters, continue
from the match end.  `fuel` only bounds the recursion; every step advances
the position by at least one, so `s.length + 1` steps always suffice. -/
def tokenizeAux (s : List Char) : Nat → Nat → List Token
  | 0, _ => []
  | fuel + 1, i =>
    if i < s.length then
      match matchAt s i with
      | some j =>
        if 2 ≤ j - i then ⟨wordAt s i j, i⟩ :: tokenizeAux s fuel j
        else tokenizeAux s fuel j
      | none => tokenizeAux s fuel (i + 1)
    else []

/-- Source lines 45-56: `defaultTokenize`. -/
def defaultTokenize (text : String) : List Token :=
  tokenizeAux text.toList (text.length + 1) 0

/-- The marker built at lines 133-141 for a misspelled token on 0-based
line `lineIdx`: `severity: opts.severity || monaco.MarkerSeverity.Warning`
(Warning = 4). -/
def markOfToken (mb : MsgKind → String → String) (sev : Option Nat) (lineIdx : Nat)
    (t : Token) : Marker :=
  { code := t.word
    startLineNumber := lineIdx + 1
    startColumn := t.pos + 1
    endLineNumber := lineIdx + 1
    endColumn := t.pos + 1 + t.word.length
    message := mb .hoverMessage t.word
    severity := sev.getD 4 }

/-- The inner token loop of `process` (lines 118-143) with a possibly
asynchronous host `check`: `check` returning `.error` models a rejected
promise, which `await result` (line 123) rethrows, aborting the loop. -/
def scanTokensE (check : String → Except JsError Bool) (mb : MsgKind → String → String)
    (sev : Option Nat) (lineIdx : Nat) : List Token → List Marker → Except JsError (List Marker)
  | [], acc => .ok acc
  | t :: ts, acc =>
    match check t.word with
    | .error e => .error e
    | .ok true => scanTokensE check mb sev lineIdx ts acc
    | .ok false => scanTokensE check mb sev lineIdx ts (acc ++ [markOfToken mb sev lineIdx t])

/-- The line loop of `process` (lines 109-144): before each line, the scan
breaks if strictly more than 500 marks have accumulated (lines 110-114);
a check failure propagates out of the loop. -/
def scanLinesE (check : String → Except JsError Bool) (tok : String → List Token)
    (mb : MsgKind → String → String) (sev : Option Nat) :
    List String → Nat → List Marker → Except JsError (List Marker)
  | [], _, acc => .ok acc
  | l :: rest, lineIdx, acc =>
    if acc.length > 500 then .ok acc
    else
      match scanTokensE check mb sev lineIdx (tok l) acc with
      | .error e => .error e
      | .ok acc2 => scanLinesE check tok mb sev rest (lineIdx + 1) acc2

/-- `scanTokensE` specialized to a host `check` returning a plain boolean
(the synchronous branch of line 123, which can never throw). -/
def scanTokens (check : String → Bool) (mb : MsgKind → String → String) (sev : Option Nat)
    (lineIdx : Nat) : List Token → List Marker → List Marker
  | [], acc => acc
  | t :: ts, acc =>
    if check t.word then scanTokens check mb sev lineIdx ts acc
    else scanTokens check mb sev lineIdx ts (acc ++ [markOfToken mb sev lineIdx t])

/-- `scanLinesE` specialized to a synchronous boolean `check`. -/
def scanLines (check : String → Bool) (tok : String → List Token)
    (mb : MsgKind → String → String) (sev : Option Nat) :
    List String → Nat → List Marker → List Marker
  | [], _, acc => acc
  | l :: rest, lineIdx, acc =>
    if acc.length > 500 then acc
    else scanLines check tok mb sev rest (lineIdx + 1) (scanTokens check mb sev lineIdx (tok l) acc)

/-- JavaScript `text.split('\n')` over the character list: split at every
newline, keeping empty segments (`"".split('\n') = [""]`,
`"a\n".split('\n') = ["a", ""]`). -/
def splitChars : List Char → List (List Char)
  | [] => [[]]
  | c :: rest =>
    if c == '\n' then [] :: splitChars rest
    else
      match splitChars rest with
      | [] => [[c]]
      | h :: t => (c :: h) :: t

/-- `model.getValue().split('\n')` (lines 106-107). -/
def splitLines (text : String) : List String :=
  (splitChars text.toList).map String.mk

/-- The state a scan observes and mutates: the `disposed` flag (line 91)
and the marker store owned by the `spellchecker` owner tag, written by
`monaco.editor.setModelMarkers` (line 146). -/
structure SpellState where
  disposed : Bool
  published : List Marker
deriving DecidableEq, Repr

/-- One run of the debounced scan callback body (lines 94-147).  `doc` is
`model.getValue()` (`none` models a null model).  On success the marker
store is replaced wholesale; on a check rejection nothing is published
and the error escapes the callback (second component), since the source
has no try/catch around the loop. -/
def processCore (check : String → Except JsError Bool) (tok : String → List Token)
    (mb : MsgKind → String → String) (sev : Option Nat) (doc : Option String)
    (st : SpellState) : SpellState × Option JsError :=
  if st.disposed then (st, none)
  else
    match doc with
    | none => (st, none)
    | some text =>
      match scanLinesE check tok mb sev (splitLines text) 0 [] with
      | .error e => (st, some e)
      | .ok marks => ({ st with published := marks }, none)

/-- `dispose` (lines 273-278): remove all markers of the owner, dispose
the subscriptions, set the disposed flag. -/
def dispose (_st : SpellState) : SpellState :=
  { disposed := true, published := [] }

def ignoreActionId : String := "spellchecker.ignore"

def addWordActionId : String := "spellchecker.addWord"

def correctActionId : String := "spellchecker.correct"

/-- Source lines 26-28. -/
def buildCommandIdForEditor (actionId : String) (editorId : String) : String :=
  editorId ++ ":" ++ actionId

/-- The command payload of a code action: a replacement (range plus
suggestion, lines 176-179) or a bare word (lines 193 and 207). -/
inductive ActionArgs
  | replaceArg (range : XRange) (suggestion : String)
  | wordArg (w : String)
deriving DecidableEq, Repr

/-- One `Monaco.languages.CodeAction` as built at lines 170-212. -/
structure CodeAction where
  title : String
  commandId : String
  commandTitle : String
  args : ActionArgs
  ranges : List XRange
  kind : String
deriving DecidableEq, Repr

/-- `Monaco.Range.containsRange` (the monaco overlap test invoked at
line 156 with `this` rebound to the marker): `inner` lies fully inside
`outer`. -/
def containsRange (outer inner : XRange) : Bool :=
  if inner.startLineNumber < outer.startLineNumber || inner.endLineNumber < outer.startLineNumber then
    false
  else if inner.startLineNumber > outer.endLineNumber || inner.endLineNumber > outer.endLineNumber then
    false
  else if inner.startLineNumber == outer.startLineNumber && inner.startColumn < outer.startColumn then
    false
  else if inner.endLineNumber == outer.endLineNumber && inner.endColumn > outer.endColumn then
    false
  else
    true

/-- `provideCodeActions` (lines 150-215).  `modelText` stands for the
document's current content reader (`model.getValueInRange`); the source
receives `model` but only uses `model.uri` to fetch the published markers,
which are passed here as `markers`, so `modelText` is never consulted.
`suggest` may reject (`.error`), which rejects the whole provider;
`cancelRequested` is `token.isCancellationRequested`, checked after
`await suggest(word)` (line 166).  `.ok none` models returning `null`. -/
def provideCodeActions (disposed : Bool) (modelText : XRange → String) (markers : List Marker)
    (range : XRange) (suggest : String → Except JsError (List String))
    (mb : MsgKind → String → String) (hasIgnoreCb hasAddWordCb : Bool)
    (cancelRequested : Bool) (editorId : String) :
    Except JsError (Option (List CodeAction)) :=
  if disposed then .ok none
  else
    match markers.find? (fun m => containsRange m.toRange range) with
    | none => .ok none
    | some marker =>
      let word := marker.code
      match suggest word with
      | .error e => .error e
      | .ok list =>
        if cancelRequested then .ok none
        else
          let replaceActions := list.map (fun s =>
            { title := s
              commandId := buildCommandIdForEditor correctActionId editorId
              commandTitle := mb .applySuggestion s
              args := ActionArgs.replaceArg marker.toRange s
              ranges := [marker.toRange]
              kind := "quickfix" })
          let ignoreActions := if hasIgnoreCb then
              [{ title := mb .ignoreWord word
                 commandId := buildCommandIdForEditor correctActionId editorId
                 commandTitle := mb .ignoreWord word
                 args := ActionArgs.wordArg word
                 ranges := [marker.toRange]
                 kind := "quickfix" }]
            else []
          let addWordActions := if hasAddWordCb then
              [{ title := mb .addToDict word
                 commandId := buildCommandIdForEditor correctActionId editorId
                 commandTitle := mb .addToDict word
                 args := ActionArgs.wordArg word
                 ranges := [marker.toRange]
                 kind := "quickfix" }]
            else []
          .ok (some (replaceActions ++ ignoreActions ++ addWordActions))

/-- The raw options object handed to `getSpellchecker` (lines 10-20).  The
TypeScript type marks `check` and `suggest` required, but at the JavaScript
level nothing stops a caller from omitting them, so they are `Option`s
here; the remaining fields carry their source defaults when absent. -/
structure RawOptions where
  check : Option (String → Except JsError Bool)
  suggest : Option (String → Except JsError (List String))
  tokenize : Option (String → List Token) := none
  ignoreCb : Option (String → Except JsError Unit) := none
  addWordCb : Option (String → Except JsError Unit) := none
  messageBuilder : Option (MsgKind → String → String) := none
  severity : Option Nat := none
  debounceInterval : Option Nat := none

/-- The constructed spellchecker: the effective callbacks obtained by the
destructuring of lines 79-88. -/
structure Spellchecker where
  effCheck : String → Except JsError Bool
  effSuggest : String → Except JsError (List String)
  effTokenize : String → List Token
  effMessageBuilder : MsgKind → String → String
  effSeverity : Option Nat
  effDebounce : Nat
  hasIgnoreCb : Bool
  hasAddWordCb : Bool

/-- Invoking a possibly-missing host callback: in JavaScript, calling
`undefined` throws a `TypeError` at call time. -/
def callOpt (f : Option (String → Except JsError α)) (w : String) : Except JsError α :=
  match f with
  | none => .error .typeError
  | some g => g w

/-- `getSpellchecker` construction (lines 74-92): plain destructuring with
defaults (`messageBuilder = defaultMessageBuilder`, `tokenize =
defaultTokenize`, `debounceInterval = 500`); the source performs no
validation of the options, so construction is total. -/
def getSpellchecker (opts : RawOptions) : Spellchecker :=
  { effCheck := callOpt opts.check
    effSuggest := callOpt opts.suggest
    effTokenize := opts.tokenize.getD defaultTokenize
    effMessageBuilder := opts.messageBuilder.getD defaultMessageBuilder
    effSeverity := opts.severity
    effDebounce := opts.debounceInterval.getD 500
    hasIgnoreCb := opts.ignoreCb.isSome
    hasAddWordCb := opts.addWordCb.isSome }

/-- Construction as the specification describes it (section 7: missing
required `check`/`suggest` fail fast at construction).  This is the
spec-side definition used to compare against the source's `getSpellchecker`
for claim C8; it is not in the source. -/
def getSpellcheckerFailFast (opts : RawOptions) : Option Spellchecker :=
  if opts.check.isNone || opts.suggest.isNone then none else some (getSpellchecker opts)

/-- One call of the function returned by `debounce` (lines 58-66) at time
`now`: the pending timeout (if any) is cleared and a fresh one is
scheduled `wait` later. -/
def debounceCall (wait now : Nat) (_pending : Option Nat) : Option Nat :=
  some (now + wait)

/-- The timer firings produced by a chronological sequence of calls to a
debounced function (lines 58-66): a pending timeout fires `wait` after the
call that scheduled it unless a later call arrives strictly before that
moment and clears it. -/
def debounceFireTimes (wait : Nat) : List Nat → List Nat
  | [] => []
  | [t] => [t + wait]
  | t1 :: t2 :: rest =>
    if t2 < t1 + wait then debounceFireTimes wait (t2 :: rest)
    else (t1 + wait) :: debounceFireTimes wait (t2 :: rest)

/-- One in-flight scan session: the debounced callback starts running at
`startTime`, spends `duration` awaiting its classifications, and calls
`setModelMarkers` with `marks` at `startTime + duration`.  The source
(lines 94-147) carries no session or generation token: nothing ties the
eventual publish back to whether a newer session has started. -/
structure ScanSession where
  startTime : Nat
  duration : Nat
  marks : List Marker
deriving DecidableEq, Repr

def ScanSession.publishTime (s : ScanSession) : Nat := s.startTime + s.duration

/-- The marker store is a last-write-wins register: among the sessions
(listed in start order) the one whose `setModelMarkers` call executes last
determines the final content; on equal publish times the later-started
session's callback runs later in the event loop. -/
def lastWriter : List ScanSession → Option ScanSession
  | [] => none
  | s :: rest =>
    match lastWriter rest with
    | none => some s
    | some t => if t.publishTime < s.publishTime then some s else some t

/-- End-to-end timing model of lines 58-66 plus 94-147: mutation
notifications at times `muts` go through the debounce, each timer firing
at time `t` starts a session that reads the document as of `t` (scan
result `scanAt t`) and publishes after `dur t`; the final store content is
the last writer's marks. -/
def runSessions (wait : Nat) (muts : List Nat) (scanAt : Nat → List Marker)
    (dur : Nat → Nat) : Option (List Marker) :=
  (lastWriter ((debounceFireTimes wait muts).map
    (fun t => ⟨t, dur t, scanAt t⟩))).map ScanSession.marks

/-- State touched by the ignore / add-word editor actions: the words
handed to the host callback so far, and the debounce timer slot of
`process`. -/
structure FixActionState where
  calls : List String
  pendingScan : Option Nat
deriving DecidableEq, Repr

/-- The `run` body of the ignore action (lines 248-253): if `word` is
truthy, `await ignore(word)` (resolving at `resolveTime`, or rethrowing
its rejection) and then call `process()` — the debounced wrapper, which
schedules a scan `wait` later. -/
def ignoreRun (wait : Nat) (cb : String → Except JsError Unit) (w : Option String)
    (resolveTime : Nat) (st : FixActionState) : FixActionState × Option JsError :=
  match w with
  | none => (st, none)
  | some word =>
    if word == "" then (st, none)
    else
      let st1 : FixActionState := { st with calls := st.calls ++ [word] }
      match cb word with
      | .error e => (st1, some e)
      | .ok _ => ({ st1 with pendingScan := debounceCall wait resolveTime st1.pendingScan }, none)

/-- The `run` body of the add-word action (lines 263-268), textually
identical to the ignore action's apart from the callback used. -/
def addWordRun (wait : Nat) (cb : String → Except JsError Unit) (w : Option String)
    (resolveTime : Nat) (st : FixActionState) : FixActionState × Option JsError :=
  match w with
  | none => (st, none)
  | some word =>
    if word == "" then (st, none)
    else
      let st1 : FixActionState := { st with calls := st.calls ++ [word] }
      match cb word with
      | .error e => (st1, some e)
      | .ok _ => ({ st1 with pendingScan := debounceCall wait resolveTime st1.pendingScan }, none)

/-- Document order on markers: earlier start line, or same line and
earlier start column. -/
def markerBefore (a b : Marker) : Prop :=
  a.startLineNumber < b.startLineNumber ∨
    (a.startLineNumber = b.startLineNumber ∧ a.startColumn < b.startColumn)

/-- All markers one line of the scan contributes: its misspelled tokens in
token order. -/
def lineMarks (check : String → Bool) (tok : String → List Token)
    (mb : MsgKind → String → String) (sev : Option Nat) (lineIdx : Nat) (l : String) :
    List Marker :=
  ((tok l).filter (fun t => !check t.word)).map (markOfToken mb sev lineIdx)

/-- All markers of a document (no cap): the misspelled tokens of every
line, in document order. -/
def docMarks (check : String → Bool) (tok : String → List Token)
    (mb : MsgKind → String → String) (sev : Option Nat) :
    List String → Nat → List Marker
  | [], _ => []
  | l :: rest, n => lineMarks check tok mb sev n l ++ docMarks check tok mb sev rest (n + 1)

/-- The classifier of the C7 scenario: exactly "Ths" and "fien" are
misspelled. -/
def c7check : String → Bool := fun w => !(w == "Ths" || w == "fien")

/-- A classifier whose promise rejects on "bb": "aa" is correct, "cc" is
misspelled, everything else resolves. -/
def check3E : String → Except JsError Bool := fun w =>
  if w == "aa" then .ok true
  else if w == "bb" then .error .rejected
  else .ok false

/-- A marker left over from an earlier completed scan pass. -/
def c3Old : Marker := ⟨"old", 1, 1, 1, 4, "\"old\" is misspelled.", 4⟩

/-- The marker a scan of "aa bb cc" would produce for "cc" if the failing
"bb" were skipped as the specification describes. -/
def c3CcMark : Marker := ⟨"cc", 1, 7, 1, 9, "\"cc\" is misspelled.", 4⟩

/-- A sample marker used by the timing counterexamples. -/
def c1Mark : Marker := ⟨"teh", 1, 1, 1, 4, "\"teh\" is misspelled.", 4⟩

/-- Document contents as a function of scan start time: before time 1000
the document scans clean, afterwards it contains one misspelled word. -/
def c1ScanAt : Nat → List Marker := fun t => if t ≤ 1000 then [] else [c1Mark]

/-- Classification delays: the session started early is slow (800), the
session started late is fast (100). -/
def c1Dur : Nat → Nat := fun t => if t ≤ 1000 then 800 else 100

/-- An options object missing the required `check` callback. -/
def c8opts : RawOptions :=
  { check := none, suggest := some (fun _ => .ok []) }

/-- The published annotation for "Ths" in the C5 scenario. -/
def thsMarker : Marker := ⟨"Ths", 1, 1, 1, 4, "\"Ths\" is misspelled.", 4⟩

/-- The C5 scenario's suggestion callback: suggest("Ths") = ["This", "The"]. -/
def sug5 : String → Except JsError (List String) := fun w =>
  if w == "Ths" then .ok ["This", "The"] else .ok []

/-- The token loop appends exactly the misspelled tokens, in token order. -/
theorem scanTokens_eq_filter_map (check : String → Bool) (mb : MsgKind → String → String)
    (sev : Option Nat) (n : Nat) :
    ∀ (ts : List Token) (acc : List Marker),
      scanTokens check mb sev n ts acc =
        acc ++ (ts.filter (fun t => !check t.word)).map (markOfToken mb sev n)
  | [], acc => by simp [scanTokens]
  | t :: ts, acc => by
    cases h : check t.word with
    | true =>
      simp only [scanTokens, h, List.filter_cons]
      simp [scanTokens_eq_filter_map check mb sev n ts acc, h]
    | false =>
      simp only [scanTokens, h, List.filter_cons]
      simp [scanTokens_eq_filter_map check mb sev n ts, h]

/-- Relating the asynchronous scan loop to its synchronous specialization:
with a host `check` that always resolves, no error can occur and the
result is the synchronous loop's. -/
theorem scanLinesE_pure (f : String → Bool) (tok : String → List Token)
    (mb : MsgKind → String → String) (sev : Option Nat) :
    ∀ (lines : List String) (n : Nat) (acc : List Marker),
      scanLinesE (fun w => .ok (f w)) tok mb sev lines n acc =
        .ok (scanLines f tok mb sev lines n acc) := by
  have htks : ∀ (n : Nat) (ts : List Token) (acc : List Marker),
      scanTokensE (fun w => .ok (f w)) mb sev n ts acc = .ok (scanTokens f mb sev n ts acc) := by
    intro n ts
    induction ts with
    | nil => intro acc; simp [scanTokensE, scanTokens]
    | cons t ts ih =>
      intro acc
      cases h : f t.word <;> simp [scanTokensE, scanTokens, h, ih]
  intro lines
  induction lines with
  | nil => intro n acc; simp [scanLinesE, scanLines]
  | cons l rest ih =>
    intro n acc
    by_cases hc : acc.length > 500
    · simp [scanLinesE, scanLines, hc]
    · simp [scanLinesE, scanLines, hc, htks, ih]

/-- Structure of a completed scan pass: the published list is the full
document-order marker list of some prefix of `k` lines; the scan stops
early only once strictly more than 500 marks have accumulated, and every
earlier line started with at most 500. -/
theorem scanLines_take (check : String → Bool) (tok : String → List Token)
    (mb : MsgKind → String → String) (sev : Option Nat) :
    ∀ (lines : List String) (n : Nat) (acc : List Marker),
      ∃ k, k ≤ lines.length ∧
        scanLines check tok mb sev lines n acc =
          acc ++ docMarks check tok mb sev (lines.take k) n ∧
        (k = lines.length ∨
          500 < acc.length + (docMarks check tok mb sev (lines.take k) n).length) ∧
        ∀ j < k, acc.length + (docMarks check tok mb sev (lines.take j) n).length ≤ 500 := by
  intro lines
  induction lines with
  | nil =>
    intro n acc
    exact ⟨0, Nat.le_refl 0, by simp [scanLines, docMarks], Or.inl rfl, by omega⟩
  | cons l rest ih =>
    intro n acc
    by_cases hc : acc.length > 500
    · refine ⟨0, Nat.zero_le _, ?_, ?_, ?_⟩
      · simp [scanLines, hc, docMarks]
      · right
        simpa [docMarks] using hc
      · omega
    · obtain ⟨k, hk, heq, hcond, hall⟩ := ih (n + 1) (scanTokens check mb sev n (tok l) acc)
      rw [scanTokens_eq_filter_map] at heq hcond hall
      refine ⟨k + 1, by simpa using hk, ?_, ?_, ?_⟩
      · have hstep : scanLines check tok mb sev (l :: rest) n acc
            = scanLines check tok mb sev rest (n + 1) (scanTokens check mb sev n (tok l) acc) := by
          simp [scanLines, hc]
        rw [hstep, scanTokens_eq_filter_map, heq]
        simp [docMarks, lineMarks, List.take_succ_cons, List.append_assoc]
      · rcases hcond with h | h
        · left
          simpa using h
        · right
          simp only [List.take_succ_cons, docMarks, lineMarks]
          simp only [List.length_append] at h ⊢
          omega
      · intro j hj
        match j with
        | 0 => simpa [docMarks] using Nat.le_of_not_lt hc
        | j' + 1 =>
          have h := hall j' (by omega)
          simp only [List.take_succ_cons, docMarks, lineMarks]
          simp only [List.length_append] at h ⊢
          omega

/-- A successful backtracking step yields an end strictly beyond the match
start and within the tried window. -/
theorem backtrack_bounds (s : List Char) (i : Nat) :
    ∀ (d j : Nat), backtrack s i d = some j → i + 1 ≤ j ∧ j ≤ i + d := by
  intro d
  induction d with
  | zero => intro j h; simp [backtrack] at h
  | succ d ih =>
    intro j h
    by_cases hb : boundaryAt s (i + d + 1) = true
    · simp [backtrack, hb] at h
      omega
    · simp [backtrack, hb] at h
      have := ih j h
      omega

/-- A regex match starting at `i` ends strictly after `i`. -/
theorem matchAt_lt (s : List Char) (i j : Nat) (h : matchAt s i = some j) : i < j := by
  unfold matchAt at h
  by_cases hb : boundaryAt s i = true
  · rw [if_pos hb] at h
    exact (backtrack_bounds s i _ j h).1
  · simp [hb] at h

/-- Unfolding `tokenizeAux` past the end of the text. -/
theorem tokenizeAux_stop (s : List Char) (fuel i : Nat) (hi : ¬ i < s.length) :
    tokenizeAux s (fuel + 1) i = [] := by
  unfold tokenizeAux
  rw [if_neg hi]

/-- Unfolding `tokenizeAux` when no match starts at `i`. -/
theorem tokenizeAux_none (s : List Char) (fuel i : Nat) (hi : i < s.length)
    (hm : matchAt s i = none) :
    tokenizeAux s (fuel + 1) i = tokenizeAux s fuel (i + 1) := by
  conv_lhs => rw [tokenizeAux]
  rw [if_pos hi, hm]

/-- Unfolding `tokenizeAux` on a match from `i` to `j`. -/
theorem tokenizeAux_some (s : List Char) (fuel i j : Nat) (hi : i < s.length)
    (hm : matchAt s i = some j) :
    tokenizeAux s (fuel + 1) i =
      if 2 ≤ j - i then ⟨wordAt s i j, i⟩ :: tokenizeAux s fuel j
      else tokenizeAux s fuel j := by
  conv_lhs => rw [tokenizeAux]
  rw [if_pos hi, hm]

/-- Every token emitted from position `i` onward starts at or after `i`. -/
theorem tokenizeAux_pos_ge (s : List Char) :
    ∀ (fuel i : Nat), ∀ t ∈ tokenizeAux s fuel i, i ≤ t.pos := by
  intro fuel
  induction fuel with
  | zero => intro i t ht; simp [tokenizeAux] at ht
  | succ fuel ih =>
    intro i t ht
    by_cases hi : i < s.length
    · cases hm : matchAt s i with
      | none =>
        rw [tokenizeAux_none s fuel i hi hm] at ht
        have := ih (i + 1) t ht
        omega
      | some j =>
        rw [tokenizeAux_some s fuel i j hi hm] at ht
        have hij := matchAt_lt s i j hm
        by_cases hlen : 2 ≤ j - i
        · rw [if_pos hlen] at ht
          rcases List.mem_cons.mp ht with h | h
          · subst h; exact Nat.le_refl i
          · have := ih j t h
            omega
        · rw [if_neg hlen] at ht
          have := ih j t ht
          omega
    · rw [tokenizeAux_stop s fuel i hi] at ht
      simp at ht

/-- Tokens are emitted with strictly increasing positions. -/
theorem tokenizeAux_pairwise (s : List Char) :
    ∀ (fuel i : Nat), (tokenizeAux s fuel i).Pairwise (fun a b => a.pos < b.pos) := by
  intro fuel
  induction fuel with
  | zero => intro i; simp [tokenizeAux]
  | succ fuel ih =>
    intro i
    by_cases hi : i < s.length
    · cases hm : matchAt s i with
      | none =>
        rw [tokenizeAux_none s fuel i hi hm]
        exact ih (i + 1)
      | some j =>
        rw [tokenizeAux_some s fuel i j hi hm]
        have hij := matchAt_lt s i j hm
        by_cases hlen : 2 ≤ j - i
        · rw [if_pos hlen]
          refine List.Pairwise.cons ?_ (ih j)
          intro t ht
          have := tokenizeAux_pos_ge s fuel j t ht
          simpa using Nat.lt_of_lt_of_le hij this
        · rw [if_neg hlen]
          exact ih j
    · rw [tokenizeAux_stop s fuel i hi]
      exact List.Pairwise.nil

/-- The default tokenizer yields tokens in strictly increasing position
order. -/
theorem defaultTokenize_pairwise (text : String) :
    (defaultTokenize text).Pairwise (fun a b => a.pos < b.pos) :=
  tokenizeAux_pairwise text.toList (text.length + 1) 0

/-- Every marker contributed by 0-based line `n` sits on 1-based line
`n + 1`. -/
theorem lineMarks_line (check : String → Bool) (tok : String → List Token)
    (mb : MsgKind → String → String) (sev : Option Nat) (n : Nat) (l : String) :
    ∀ m ∈ lineMarks check tok mb sev n l, m.startLineNumber = n + 1 := by
  intro m hm
  obtain ⟨t, _, rfl⟩ := List.mem_map.mp hm
  rfl

/-- Markers of lines `n, n+1, …` all sit on 1-based lines `≥ n + 1`. -/
theorem docMarks_line_ge (check : String → Bool) (tok : String → List Token)
    (mb : MsgKind → String → String) (sev : Option Nat) :
    ∀ (ls : List String) (n : Nat), ∀ m ∈ docMarks check tok mb sev ls n,
      n + 1 ≤ m.startLineNumber := by
  intro ls
  induction ls with
  | nil => intro n m hm; simp [docMarks] at hm
  | cons l rest ih =>
    intro n m hm
    rcases List.mem_append.mp hm with h | h
    · exact Nat.le_of_eq (lineMarks_line check tok mb sev n l m h).symm
    · have := ih (n + 1) m h
      omega

/-- With the default tokenizer, one line's markers are strictly ordered by
start column. -/
theorem lineMarks_pairwise (check : String → Bool) (mb : MsgKind → String → String)
    (sev : Option Nat) (n : Nat) (l : String) :
    (lineMarks check defaultTokenize mb sev n l).Pairwise markerBefore := by
  unfold lineMarks
  rw [List.pairwise_map]
  refine List.Pairwise.imp ?_ ((defaultTokenize_pairwise l).filter _)
  intro a b hab
  right
  exact ⟨rfl, by simpa [markOfToken] using hab⟩

/-- With the default tokenizer, the full document-order marker list is
sorted by (line, column). -/
theorem docMarks_pairwise (check : String → Bool) (mb : MsgKind → String → String)
    (sev : Option Nat) :
    ∀ (ls : List String) (n : Nat),
      (docMarks check defaultTokenize mb sev ls n).Pairwise markerBefore := by
  intro ls
  induction ls with
  | nil => intro n; simp [docMarks]
  | cons l rest ih =>
    intro n
    unfold docMarks
    rw [List.pairwise_append]
    refine ⟨lineMarks_pairwise check mb sev n l, ih (n + 1), ?_⟩
    intro a ha b hb
    left
    have hla := lineMarks_line check defaultTokenize mb sev n l a ha
    have hlb := docMarks_line_ge check defaultTokenize mb sev rest (n + 1) b hb
    omega

/-- Once more than 500 marks have accumulated, the line loop does nothing
further. -/
theorem scanLinesE_of_gt (check : String → Except JsError Bool) (tok : String → List Token)
    (mb : MsgKind → String → String) (sev : Option Nat) (ys : List String) (n : Nat)
    (acc : List Marker) (hacc : acc.length > 500) :
    scanLinesE check tok mb sev ys n acc = .ok acc := by
  cases ys with
  | nil => rfl
  | cons y ys => simp [scanLinesE, hacc]

/-- The line loop over a concatenation runs the first part and feeds its
accumulated marks into the second. -/
theorem scanLinesE_append (check : String → Except JsError Bool) (tok : String → List Token)
    (mb : MsgKind → String → String) (sev : Option Nat) :
    ∀ (xs ys : List String) (n : Nat) (acc : List Marker),
      scanLinesE check tok mb sev (xs ++ ys) n acc =
        (scanLinesE check tok mb sev xs n acc).bind
          (fun a => scanLinesE check tok mb sev ys (n + xs.length) a) := by
  intro xs
  induction xs with
  | nil => intro ys n acc; simp [scanLinesE, Except.bind]
  | cons x xs ih =>
    intro ys n acc
    by_cases hc : acc.length > 500
    · rw [show (x :: xs) ++ ys = x :: (xs ++ ys) from rfl]
      rw [scanLinesE_of_gt check tok mb sev (x :: (xs ++ ys)) n acc hc]
      rw [scanLinesE_of_gt check tok mb sev (x :: xs) n acc hc]
      simp only [Except.bind, List.length_cons]
      exact (scanLinesE_of_gt check tok mb sev ys (n + (xs.length + 1)) acc hc).symm
    · rw [show (x :: xs) ++ ys = x :: (xs ++ ys) from rfl]
      simp only [scanLinesE, hc, if_neg, ite_false]
      cases hts : scanTokensE check mb sev n (tok x) acc with
      | error e => simp [Except.bind]
      | ok acc2 =>
        simp only [Except.bind]
        rw [ih ys (n + 1) acc2]
        have harith : n + (x :: xs).length = n + 1 + xs.length := by
          simp only [List.length_cons]
          omega
        rw [harith]
        rfl

/-- If every token before `t` resolves and `t`'s check rejects, the token
loop rejects. -/
theorem scanTokensE_error (check : String → Except JsError Bool)
    (mb : MsgKind → String → String) (sev : Option Nat) (n : Nat) (t : Token)
    (ts2 : List Token) (e : JsError) (he : check t.word = .error e) :
    ∀ (ts1 : List Token) (acc : List Marker),
      (∀ u ∈ ts1, ∃ b, check u.word = .ok b) →
      scanTokensE check mb sev n (ts1 ++ t :: ts2) acc = .error e := by
  intro ts1
  induction ts1 with
  | nil => intro acc _; simp [scanTokensE, he]
  | cons u ts1 ih =>
    intro acc hall
    obtain ⟨b, hb⟩ := hall u (List.mem_cons_self u ts1)
    have hrest : ∀ v ∈ ts1, ∃ b, check v.word = .ok b :=
      fun v hv => hall v (List.mem_cons_of_mem u hv)
    cases b with
    | true => simp [scanTokensE, hb, ih _ hrest]
    | false => simp [scanTokensE, hb, ih _ hrest]

/-- Claim C7: scanning the document "Ths is fien." with the default
tokenizer and check("Ths") = check("fien") = false, check("is") = true
publishes exactly the two annotations {word "Ths", columns 1-4} and
{word "fien", columns 8-12} on line 1; the tokens handed to `check` are
exactly "Ths", "is" and "fien" (so `check` is never invoked on a token
containing punctuation such as "is."), and every token consists purely of
letters and apostrophes. -/
theorem c7_scenario :
    processCore (fun w => .ok (c7check w)) defaultTokenize defaultMessageBuilder none
        (some "Ths is fien.") ⟨false, []⟩ =
      (⟨false, [⟨"Ths", 1, 1, 1, 4, "\"Ths\" is misspelled.", 4⟩,
                ⟨"fien", 1, 8, 1, 12, "\"fien\" is misspelled.", 4⟩]⟩, none)
  ∧ defaultTokenize "Ths is fien." = [⟨"Ths", 0⟩, ⟨"is", 4⟩, ⟨"fien", 7⟩]
  ∧ (∀ t ∈ defaultTokenize "Ths is fien.", ∀ c ∈ t.word.toList, isClassChar c = true) := by
  refine ⟨by decide, by decide, by decide⟩

/-- Claim C9: after `dispose()`, a run of the (possibly still pending)
debounced scan callback changes nothing and reports no error, the
markers are cleared, disposing twice equals disposing once (and is a
total function, so it cannot throw), and the code-action provider of a
disposed instance answers `null` without error. -/
theorem c9_dispose_teardown :
    ∀ (st : SpellState) (check : String → Except JsError Bool) (tok : String → List Token)
      (mb : MsgKind → String → String) (sev : Option Nat) (doc : Option String)
      (mt : XRange → String) (ms : List Marker) (r : XRange)
      (sug : String → Except JsError (List String)) (mb2 : MsgKind → String → String)
      (hi ha cr : Bool) (eid : String),
      processCore check tok mb sev doc (dispose st) = (dispose st, none)
    ∧ dispose (dispose st) = dispose st
    ∧ (dispose st).published = []
    ∧ provideCodeActions true mt ms r sug mb2 hi ha cr eid = .ok none := by
  intro st check tok mb sev doc mt ms r sug mb2 hi ha cr eid
  exact ⟨rfl, rfl, rfl, rfl⟩

/-- Claim C6: with the default tokenizer, the annotation set a completed
scan publishes is sorted ascending by (start line, start column) for every
document and every classifier.  In the source the classifications are
awaited one at a time inside the loop (line 123), so their completion
order coincides with document order and cannot affect the published
order. -/
theorem c6_ordering :
    ∀ (check : String → Bool) (mb : MsgKind → String → String) (sev : Option Nat)
      (lines : List String),
      (scanLines check defaultTokenize mb sev lines 0 []).Pairwise markerBefore := by
  intro check mb sev lines
  obtain ⟨k, _, heq, _, _⟩ := scanLines_take check defaultTokenize mb sev lines 0 []
  rw [heq]
  simpa using docMarks_pairwise check mb sev (lines.take k) 0

/-- Claim C2, counterexample: a document of 501 lines, each containing one
misspelled two-letter word, produces a published set of 501 annotations —
not 500 — because the cap of lines 110-114 is only tested before a line
starts and only once the count strictly exceeds 500. -/
theorem c2_counterexample :
    (scanLines (fun _ => false) defaultTokenize defaultMessageBuilder none
        (List.replicate 501 "xx") 0 []).length = 501
  ∧ (501 : Nat) ≠ 500 := by
  have hline : ∀ n : Nat,
      (lineMarks (fun _ => false) defaultTokenize defaultMessageBuilder none n "xx").length = 1 := by
    intro n
    simp only [lineMarks, List.length_map]
    decide
  have hdoc : ∀ (m : Nat) (n : Nat),
      (docMarks (fun _ => false) defaultTokenize defaultMessageBuilder none
        (List.replicate m "xx") n).length = m := by
    intro m
    induction m with
    | zero => intro n; simp [docMarks]
    | succ m ih =>
      intro n
      rw [List.replicate_succ]
      simp only [docMarks, List.length_append, hline, ih]
      omega
  obtain ⟨k, hk, heq, hcond, _⟩ :=
    scanLines_take (fun _ => false) defaultTokenize defaultMessageBuilder none
      (List.replicate 501 "xx") 0 []
  rw [List.length_replicate] at hk
  have htake : (List.replicate 501 "xx").take k = List.replicate k "xx" := by
    rw [List.take_replicate, Nat.min_eq_left hk]
  have hklen :
      (docMarks (fun _ => false) defaultTokenize defaultMessageBuilder none
        ((List.replicate 501 "xx").take k) 0).length = k := by
    rw [htake]
    exact hdoc k 0
  have hk501 : k = 501 := by
    rcases hcond with h | h
    · rw [List.length_replicate] at h
      exact h
    · rw [hklen] at h
      simp only [List.length_nil] at h
      omega
  refine ⟨?_, by decide⟩
  rw [heq, List.nil_append, hklen, hk501]

/-- Claim C2 as amended: the scan stops only at a line boundary, and only
once strictly more than 500 annotations have accumulated.  The published
set is the full document-order annotation list of a prefix of `k` lines;
the scan either covered the whole document or stopped with more than 500
accumulated, and every line it entered started with at most 500 — so the
set is the first annotations in document order but its size may exceed
500. -/
theorem c2_cap_amended :
    ∀ (check : String → Bool) (tok : String → List Token)
      (mb : MsgKind → String → String) (sev : Option Nat) (lines : List String),
      ∃ k, k ≤ lines.length ∧
        scanLines check tok mb sev lines 0 [] = docMarks check tok mb sev (lines.take k) 0 ∧
        (k = lines.length ∨ 500 < (docMarks check tok mb sev (lines.take k) 0).length) ∧
        ∀ j < k, (docMarks check tok mb sev (lines.take j) 0).length ≤ 500 := by
  intro check tok mb sev lines
  obtain ⟨k, hk, heq, hcond, hall⟩ := scanLines_take check tok mb sev lines 0 []
  refine ⟨k, hk, by simpa using heq, by simpa using hcond, fun j hj => by simpa using hall j hj⟩

/-- Claim C1, counterexample: mutations at times 0 and 600 with the
default 500 debounce interval produce two scan sessions (timers fire at
500 and 1100).  The newer session starts at 1100, before the older
session finishes at 500 + 800 = 1300 — yet the final marker store holds
the OLD session's (stale, empty) result, because the older session's
`setModelMarkers` runs last and nothing suppresses it. -/
theorem c1_counterexample :
    debounceFireTimes 500 [0, 600] = [500, 1100]
  ∧ 500 < 1100
  ∧ 1100 < 500 + c1Dur 500
  ∧ runSessions 500 [0, 600] c1ScanAt c1Dur = some []
  ∧ c1ScanAt 1100 = [c1Mark]
  ∧ ([] : List Marker) ≠ [c1Mark] := by
  refine ⟨by decide, by decide, by decide, by decide, by decide, by decide⟩

/-- Claim C1 as amended: stale-session suppression holds only through the
debounce: when the second mutation arrives within the debounce interval
of the first, the first session's timer is cleared, so only one session
ever starts (at t1 + wait) and the final published set is exactly that
session's scan of the post-t1 document.  A session whose timer has
already fired is never suppressed (see the counterexample). -/
theorem c1_debounce_suppression :
    ∀ (t0 t1 wait : Nat) (scanAt : Nat → List Marker) (dur : Nat → Nat),
      t0 ≤ t1 → t1 < t0 + wait →
      runSessions wait [t0, t1] scanAt dur = some (scanAt (t1 + wait)) := by
  intro t0 t1 wait scanAt dur _h1 h2
  simp [runSessions, debounceFireTimes, h2, lastWriter]

/-- Witness for the amended C1 theorem at t0 = 0, t1 = 100, wait = 500. -/
theorem c1_debounce_suppression_witness :
    runSessions 500 [0, 100] (fun t => if t == 600 then [c1Mark] else []) (fun _ => 42)
      = some [c1Mark] := by
  have h := c1_debounce_suppression 0 100 500
    (fun t => if t == 600 then [c1Mark] else []) (fun _ => 42) (by decide) (by decide)
  exact h.trans (by decide)

/-- Claim C4, counterexample: running the ignore action with word "teh" at
resolve time 0 under the default 500 debounce interval invokes the host
callback with "teh" but schedules the re-scan at time 500 = 0 + 500, not
at time 0: `process()` (line 251) is the debounced wrapper, so the re-scan
is NOT immediate and the debounce interval is NOT bypassed. -/
theorem c4_counterexample :
    ignoreRun 500 (fun _ => .ok ()) (some "teh") 0 ⟨[], none⟩ = (⟨["teh"], some 500⟩, none)
  ∧ some 500 ≠ (some 0 : Option Nat) := by
  refine ⟨by decide, by decide⟩

/-- Claim C4 as amended: when the ignore / add-word action runs with a
non-empty word and the host callback resolves, the callback is invoked
with exactly that word and a re-scan is then requested through the
debounced `process`, scheduled one full debounce interval after the
callback resolves — not immediately. -/
theorem c4_rescan_after_debounce :
    ∀ (wait : Nat) (cb : String → Except JsError Unit) (w : String) (r : Nat)
      (st : FixActionState),
      w ≠ "" → cb w = .ok () →
      ignoreRun wait cb (some w) r st = (⟨st.calls ++ [w], some (r + wait)⟩, none)
    ∧ addWordRun wait cb (some w) r st = (⟨st.calls ++ [w], some (r + wait)⟩, none) := by
  intro wait cb w r st hw hcb
  have hbeq : (w == "") = false := by
    simpa using hw
  constructor
  · simp [ignoreRun, hbeq, hcb, debounceCall]
  · simp [addWordRun, hbeq, hcb, debounceCall]

/-- Witness for the amended C4 theorem with word "teh" resolving at time 3. -/
theorem c4_rescan_after_debounce_witness :
    ignoreRun 500 (fun _ => .ok ()) (some "teh") 3 ⟨[], none⟩ = (⟨["teh"], some 503⟩, none)
  ∧ addWordRun 500 (fun _ => .ok ()) (some "teh") 3 ⟨[], none⟩ = (⟨["teh"], some 503⟩, none) := by
  have h := c4_rescan_after_debounce 500 (fun _ => .ok ()) "teh" 3 ⟨[], none⟩ (by decide) rfl
  exact ⟨h.1.trans (by decide), h.2.trans (by decide)⟩

/-- Claim C3, counterexample: scanning "aa bb cc" where check("aa")
resolves true, check("bb") rejects and check("cc") resolves false does NOT
skip "bb" and publish the annotation for "cc": the rejection aborts the
whole pass (the store keeps the previous pass's markers and the error
escapes the scan loop), so the published set is neither the
claim-predicted `[c3CcMark]` nor anything new. -/
theorem c3_counterexample :
    processCore check3E defaultTokenize defaultMessageBuilder none (some "aa bb cc")
        ⟨false, [c3Old]⟩ = (⟨false, [c3Old]⟩, some JsError.rejected)
  ∧ scanLinesE check3E defaultTokenize defaultMessageBuilder none
        (splitLines "aa bb cc") 0 [] = .error JsError.rejected
  ∧ [c3Old] ≠ [c3CcMark] := by
  refine ⟨by decide, by decide, by decide⟩

/-- Claim C3 as amended: if the `check` promise rejects for some token
(all tokens before it in its line having resolved, the lines before it
having scanned without error or cap break), the whole scan pass aborts:
no annotation set is published for the pass — the previously published
set stays — and the rejection escapes the scan loop as the callback's
error (in the browser, an unhandled rejection; there is no deliberate
report channel and the remaining tokens are never evaluated). -/
theorem c3_reject_aborts :
    ∀ (check : String → Except JsError Bool) (tok : String → List Token)
      (mb : MsgKind → String → String) (sev : Option Nat) (text : String) (st : SpellState)
      (ls1 : List String) (L : String) (ls2 : List String) (ts1 : List Token) (t : Token)
      (ts2 : List Token) (accPre : List Marker) (e : JsError),
      st.disposed = false →
      splitLines text = ls1 ++ L :: ls2 →
      scanLinesE check tok mb sev ls1 0 [] = .ok accPre →
      accPre.length ≤ 500 →
      tok L = ts1 ++ t :: ts2 →
      (∀ u ∈ ts1, ∃ b, check u.word = .ok b) →
      check t.word = .error e →
      processCore check tok mb sev (some text) st = (st, some e) := by
  intro check tok mb sev text st ls1 L ls2 ts1 t ts2 accPre e hd hsplit hpre hle htokL hok he
  have hguard : ¬ accPre.length > 500 := by omega
  have htoks : scanTokensE check mb sev ls1.length (tok L) accPre = .error e := by
    rw [htokL]
    exact scanTokensE_error check mb sev _ t ts2 e he ts1 accPre hok
  have hstep : scanLinesE check tok mb sev (L :: ls2) (0 + ls1.length) accPre = .error e := by
    simp [scanLinesE, hguard, htoks]
  have herr : scanLinesE check tok mb sev (splitLines text) 0 [] = .error e := by
    rw [hsplit, scanLinesE_append, hpre]
    simpa [Except.bind] using hstep
  simp [processCore, hd, herr]

/-- Witness for the amended C3 theorem on the document "aa bb cc" with an
empty prior marker store. -/
theorem c3_reject_aborts_witness :
    processCore check3E defaultTokenize defaultMessageBuilder none (some "aa bb cc")
      ⟨false, []⟩ = (⟨false, []⟩, some JsError.rejected) := by
  refine c3_reject_aborts check3E defaultTokenize defaultMessageBuilder none "aa bb cc"
    ⟨false, []⟩ [] "aa bb cc" [] [⟨"aa", 0⟩] ⟨"bb", 3⟩ [⟨"cc", 6⟩] [] JsError.rejected
    rfl (by decide) rfl (by decide) (by decide) ?_ (by decide)
  intro u hu
  have hu2 : u = ⟨"aa", 0⟩ := by simpa using hu
  rw [hu2]
  exact ⟨true, by decide⟩

/-- Claim C5: a code-action query that matches no published annotation
yields `null`; a query matched by annotation `m` (the first, in store
order, whose span contains the queried range) yields exactly one replace
action per suggestion for `m`'s word, preserving suggestion order,
followed by one ignore action iff an ignore callback was configured,
followed by one add-word action iff an add-word callback was
configured. -/
theorem c5_action_list :
    ∀ (mt : XRange → String) (ms : List Marker) (r : XRange)
      (sug : String → Except JsError (List String)) (mb : MsgKind → String → String)
      (hi ha : Bool) (eid : String),
      (ms.find? (fun m => containsRange m.toRange r) = none →
        provideCodeActions false mt ms r sug mb hi ha false eid = .ok none)
    ∧ (∀ m l, ms.find? (fun m => containsRange m.toRange r) = some m →
        sug m.code = .ok l →
        provideCodeActions false mt ms r sug mb hi ha false eid = .ok (some (
          l.map (fun s =>
            { title := s
              commandId := buildCommandIdForEditor correctActionId eid
              commandTitle := mb .applySuggestion s
              args := ActionArgs.replaceArg m.toRange s
              ranges := [m.toRange]
              kind := "quickfix" })
          ++ (if hi then
              [{ title := mb .ignoreWord m.code
                 commandId := buildCommandIdForEditor correctActionId eid
                 commandTitle := mb .ignoreWord m.code
                 args := ActionArgs.wordArg m.code
                 ranges := [m.toRange]
                 kind := "quickfix" }]
              else [])
          ++ (if ha then
              [{ title := mb .addToDict m.code
                 commandId := buildCommandIdForEditor correctActionId eid
                 commandTitle := mb .addToDict m.code
                 args := ActionArgs.wordArg m.code
                 ranges := [m.toRange]
                 kind := "quickfix" }]
              else [])))) := by
  intro mt ms r sug mb hi ha eid
  constructor
  · intro hnone
    simp [provideCodeActions, hnone]
  · intro m l hfind hsug
    simp [provideCodeActions, hfind, hsug]

/-- Witness for C5: the specification's scenario — suggest("Ths") =
["This", "The"], no ignore/add-word callback configured, querying at the
"Ths" annotation's range yields exactly two replace actions, for "This"
then "The". -/
theorem c5_action_list_witness :
    provideCodeActions false (fun _ => "") [thsMarker] ⟨1, 1, 1, 4⟩ sug5
        defaultMessageBuilder false false false "e1" =
      .ok (some [
        { title := "This"
          commandId := "e1:spellchecker.correct"
          commandTitle := "Replace with \"This\""
          args := ActionArgs.replaceArg ⟨1, 1, 1, 4⟩ "This"
          ranges := [⟨1, 1, 1, 4⟩]
          kind := "quickfix" },
        { title := "The"
          commandId := "e1:spellchecker.correct"
          commandTitle := "Replace with \"The\""
          args := ActionArgs.replaceArg ⟨1, 1, 1, 4⟩ "The"
          ranges := [⟨1, 1, 1, 4⟩]
          kind := "quickfix" }]) := by
  have h := (c5_action_list (fun _ => "") [thsMarker] ⟨1, 1, 1, 4⟩ sug5
    defaultMessageBuilder false false "e1").2 thsMarker ["This", "The"]
    (by decide) (by decide)
  exact h.trans (by decide)

/-- Claim C8, counterexample: an options object missing the required
`check` callback is NOT rejected at construction — the spec-side
fail-fast construction refuses it, but the source construction returns a
spellchecker whose very first scan fails, at `check(word)` call time,
with a TypeError. -/
theorem c8_counterexample :
    getSpellcheckerFailFast c8opts = none
  ∧ processCore (getSpellchecker c8opts).effCheck (getSpellchecker c8opts).effTokenize
      (getSpellchecker c8opts).effMessageBuilder (getSpellchecker c8opts).effSeverity
      (some "Helo wrld") ⟨false, []⟩ = (⟨false, []⟩, some JsError.typeError) := by
  refine ⟨rfl, by decide⟩

/-- Claim C8 as amended: `getSpellchecker` performs no runtime validation
(required-ness of `check`/`suggest` is enforced only by the static
TypeScript types).  With `check` missing, construction still returns a
spellchecker, and any scan of a document whose first line contains a
token fails at `check`-call time with a TypeError, publishing nothing. -/
theorem c8_no_validation :
    ∀ (opts : RawOptions) (st : SpellState) (text l0 : String) (rest : List String),
      opts.check = none → st.disposed = false → splitLines text = l0 :: rest →
      (getSpellchecker opts).effTokenize l0 ≠ [] →
      getSpellcheckerFailFast opts = none
    ∧ processCore (getSpellchecker opts).effCheck (getSpellchecker opts).effTokenize
        (getSpellchecker opts).effMessageBuilder (getSpellchecker opts).effSeverity
        (some text) st = (st, some JsError.typeError) := by
  intro opts st text l0 rest hchk hd hsplit htok
  have hcw : ∀ w, (getSpellchecker opts).effCheck w = .error JsError.typeError := by
    intro w
    simp [getSpellchecker, hchk, callOpt]
  constructor
  · simp [getSpellcheckerFailFast, hchk]
  · obtain ⟨u, us, htok2⟩ : ∃ u us, (getSpellchecker opts).effTokenize l0 = u :: us := by
      cases h : (getSpellchecker opts).effTokenize l0 with
      | nil => exact absurd h htok
      | cons u us => exact ⟨u, us, rfl⟩
    have htoks : scanTokensE (getSpellchecker opts).effCheck
        (getSpellchecker opts).effMessageBuilder (getSpellchecker opts).effSeverity 0
        ((getSpellchecker opts).effTokenize l0) [] = .error JsError.typeError := by
      rw [htok2]
      simp [scanTokensE, hcw]
    have herr : scanLinesE (getSpellchecker opts).effCheck (getSpellchecker opts).effTokenize
        (getSpellchecker opts).effMessageBuilder (getSpellchecker opts).effSeverity
        (splitLines text) 0 [] = .error JsError.typeError := by
      rw [hsplit]
      simp [scanLinesE, htoks]
    simp [processCore, hd, herr]

/-- Witness for the amended C8 theorem on the document "Ths teh". -/
theorem c8_no_validation_witness :
    getSpellcheckerFailFast c8opts = none
  ∧ processCore (getSpellchecker c8opts).effCheck (getSpellchecker c8opts).effTokenize
      (getSpellchecker c8opts).effMessageBuilder (getSpellchecker c8opts).effSeverity
      (some "Ths teh") ⟨false, []⟩ = (⟨false, []⟩, some JsError.typeError) :=
  c8_no_validation c8opts ⟨false, []⟩ "Ths teh" "Ths teh" [] rfl rfl (by decide) (by decide)

/-- Claim C10: the code-action provider never reads the document's current
text — its output is identical for any two text readers — and every
action it produces is built from the matched marker's scan-time `code`
field: word-payload actions carry exactly `m.code`, and replace actions
carry `m`'s recorded range and one of the suggestions returned for
`m.code`. -/
theorem c10_scan_time_word :
    ∀ (d : Bool) (mt1 mt2 : XRange → String) (ms : List Marker) (r : XRange)
      (sug : String → Except JsError (List String)) (mb : MsgKind → String → String)
      (hi ha cr : Bool) (eid : String),
      provideCodeActions d mt1 ms r sug mb hi ha cr eid =
        provideCodeActions d mt2 ms r sug mb hi ha cr eid
    ∧ (∀ m l acts, d = false → cr = false →
        ms.find? (fun mk => containsRange mk.toRange r) = some m →
        sug m.code = .ok l →
        provideCodeActions d mt1 ms r sug mb hi ha cr eid = .ok (some acts) →
        (∀ a ∈ acts, ∀ w, a.args = ActionArgs.wordArg w → w = m.code)
      ∧ (∀ a ∈ acts, ∀ rg s, a.args = ActionArgs.replaceArg rg s →
          s ∈ l ∧ rg = m.toRange)) := by
  intro d mt1 mt2 ms r sug mb hi ha cr eid
  constructor
  · rfl
  · intro m l acts hd hcr hfind hsug hacts
    subst hd
    subst hcr
    simp only [provideCodeActions, hfind, hsug, if_false, Bool.false_eq_true] at hacts
    have hacts2 := (Option.some.injEq _ _).mp ((Except.ok.injEq _ _).mp hacts)
    subst hacts2
    constructor
    · intro a haa w hw
      rcases List.mem_append.mp haa with h | h
      · rcases List.mem_append.mp h with h2 | h2
        · obtain ⟨s, _, rfl⟩ := List.mem_map.mp h2
          simp at hw
        · by_cases hhi : hi
          · rw [if_pos hhi] at h2
            have : a = { title := mb .ignoreWord m.code
                         commandId := buildCommandIdForEditor correctActionId eid
                         commandTitle := mb .ignoreWord m.code
                         args := ActionArgs.wordArg m.code
                         ranges := [m.toRange]
                         kind := "quickfix" } := by simpa using h2
            rw [this] at hw
            simpa using hw.symm
          · rw [if_neg hhi] at h2
            simp at h2
      · by_cases hha : ha
        · rw [if_pos hha] at h
          have : a = { title := mb .addToDict m.code
                       commandId := buildCommandIdForEditor correctActionId eid
                       commandTitle := mb .addToDict m.code
                       args := ActionArgs.wordArg m.code
                       ranges := [m.toRange]
                       kind := "quickfix" } := by simpa using h
          rw [this] at hw
          simpa using hw.symm
        · rw [if_neg hha] at h
          simp at h
    · intro a haa rg s hw
      rcases List.mem_append.mp haa with h | h
      · rcases List.mem_append.mp h with h2 | h2
        · obtain ⟨s2, hs2, rfl⟩ := List.mem_map.mp h2
          simp at hw
          exact ⟨hw.2 ▸ hs2, hw.1.symm⟩
        · by_cases hhi : hi
          · rw [if_pos hhi] at h2
            have : a = { title := mb .ignoreWord m.code
                         commandId := buildCommandIdForEditor correctActionId eid
                         commandTitle := mb .ignoreWord m.code
                         args := ActionArgs.wordArg m.code
                         ranges := [m.toRange]
                         kind := "quickfix" } := by simpa using h2
            rw [this] at hw
            simp at hw
          · rw [if_neg hhi] at h2
            simp at h2
      · by_cases hha : ha
        · rw [if_pos hha] at h
          have : a = { title := mb .addToDict m.code
                       commandId := buildCommandIdForEditor correctActionId eid
                       commandTitle := mb .addToDict m.code
                       args := ActionArgs.wordArg m.code
                       ranges := [m.toRange]
                       kind := "quickfix" } := by simpa using h
          rw [this] at hw
          simp at hw
        · rw [if_neg hha] at h
          simp at h

/-- Witness for C10: with the document text reader answering "XX"
(simulating a document edited after the scan), the actions of the "Ths"
annotation still refer to the scan-time word "Ths". -/
theorem c10_scan_time_word_witness :
    (∀ a ∈ [
      ({ title := "This", commandId := "e1:spellchecker.correct",
         commandTitle := "Replace with \"This\"",
         args := ActionArgs.replaceArg ⟨1, 1, 1, 4⟩ "This",
         ranges := [(⟨1, 1, 1, 4⟩ : XRange)], kind := "quickfix" } : CodeAction),
      { title := "The", commandId := "e1:spellchecker.correct",
        commandTitle := "Replace with \"The\"",
        args := ActionArgs.replaceArg ⟨1, 1, 1, 4⟩ "The",
        ranges := [(⟨1, 1, 1, 4⟩ : XRange)], kind := "quickfix" },
      { title := "Ignore \"Ths\"", commandId := "e1:spellchecker.correct",
        commandTitle := "Ignore \"Ths\"",
        args := ActionArgs.wordArg "Ths",
        ranges := [(⟨1, 1, 1, 4⟩ : XRange)], kind := "quickfix" },
      { title := "Add \"Ths\" to Dictionary", commandId := "e1:spellchecker.correct",
        commandTitle := "Add \"Ths\" to Dictionary",
        args := ActionArgs.wordArg "Ths",
        ranges := [(⟨1, 1, 1, 4⟩ : XRange)], kind := "quickfix" }],
      ∀ w, a.args = ActionArgs.wordArg w → w = thsMarker.code)
  ∧ (∀ a ∈ [
      ({ title := "This", commandId := "e1:spellchecker.correct",
         commandTitle := "Replace with \"This\"",
         args := ActionArgs.replaceArg ⟨1, 1, 1, 4⟩ "This",
         ranges := [(⟨1, 1, 1, 4⟩ : XRange)], kind := "quickfix" } : CodeAction),
      { title := "The", commandId := "e1:spellchecker.correct",
        commandTitle := "Replace with \"The\"",
        args := ActionArgs.replaceArg ⟨1, 1, 1, 4⟩ "The",
        ranges := [(⟨1, 1, 1, 4⟩ : XRange)], kind := "quickfix" },
      { title := "Ignore \"Ths\"", commandId := "e1:spellchecker.correct",
        commandTitle := "Ignore \"Ths\"",
        args := ActionArgs.wordArg "Ths",
        ranges := [(⟨1, 1, 1, 4⟩ : XRange)], kind := "quickfix" },
      { title := "Add \"Ths\" to Dictionary", commandId := "e1:spellchecker.correct",
        commandTitle := "Add \"Ths\" to Dictionary",
        args := ActionArgs.wordArg "Ths",
        ranges := [(⟨1, 1, 1, 4⟩ : XRange)], kind := "quickfix" }],
      ∀ rg s, a.args = ActionArgs.replaceArg rg s → s ∈ ["This", "The"] ∧ rg = thsMarker.toRange) :=
  (c10_scan_time_word false (fun _ => "XX") (fun _ => "") [thsMarker] ⟨1, 1, 1, 4⟩ sug5
    defaultMessageBuilder true true false "e1").2 thsMarker ["This", "The"] _
    rfl rfl (by decide) (by decide) (by decide)

end Spell
